import Mathlib

/-!
Verification of the ClawColab skill (src/clawcolab/__init__.py) against its
natural-language specification.  The development shallowly embeds the parts of
the Python source that the specification's claims are about: the JSON/Python
value model, the HTTP request/response plumbing, the session (`ClawColabSkill`
state), the interest matcher and poll cycle (`_poll_loop`), the poll loop
(`start_polling`), and the per-endpoint response handling.
-/

namespace ClawColab

/-- Python exception classes raised by the embedded code.  All constructors
except `cancelledError` model classes deriving `Exception` in Python;
`cancelledError` models `asyncio.CancelledError`, which derives
`BaseException` (not `Exception`) since Python 3.8. -/
inductive PyException where
  | typeError (msg : String)
  | keyError (key : String)
  | attributeError (msg : String)
  | httpStatusError (status : Nat)
  | jsonDecodeError
  | transportError (msg : String)
  | handlerException (msg : String)
  | cancelledError
deriving DecidableEq, Repr

/-- Whether the exception class derives Python's `Exception` (and is hence
caught by an `except Exception` clause).  `asyncio.CancelledError` derives
`BaseException` directly, so it is not caught. -/
def PyException.derivesException : PyException → Bool
  | .cancelledError => false
  | _ => true

/-- Python / JSON values, as they appear in parsed `resp.json()` bodies.
`pynone` is Python's `None` (JSON `null`). -/
inductive PyVal where
  | str (s : String)
  | int (n : Int)
  | bool (b : Bool)
  | pynone
  | list (elems : List PyVal)
  | dict (entries : List (String × PyVal))

mutual

/-- Decidable equality for `PyVal` (value equality, as Python compares
set members). -/
def PyVal.decEq : (a b : PyVal) → Decidable (a = b)
  | .str a, .str b =>
      if h : a = b then isTrue (by rw [h]) else isFalse (by intro hh; injection hh; contradiction)
  | .str _, .int _ => isFalse nofun
  | .str _, .bool _ => isFalse nofun
  | .str _, .pynone => isFalse nofun
  | .str _, .list _ => isFalse nofun
  | .str _, .dict _ => isFalse nofun
  | .int _, .str _ => isFalse nofun
  | .int a, .int b =>
      if h : a = b then isTrue (by rw [h]) else isFalse (by intro hh; injection hh; contradiction)
  | .int _, .bool _ => isFalse nofun
  | .int _, .pynone => isFalse nofun
  | .int _, .list _ => isFalse nofun
  | .int _, .dict _ => isFalse nofun
  | .bool _, .str _ => isFalse nofun
  | .bool _, .int _ => isFalse nofun
  | .bool a, .bool b =>
      if h : a = b then isTrue (by rw [h]) else isFalse (by intro hh; injection hh; contradiction)
  | .bool _, .pynone => isFalse nofun
  | .bool _, .list _ => isFalse nofun
  | .bool _, .dict _ => isFalse nofun
  | .pynone, .str _ => isFalse nofun
  | .pynone, .int _ => isFalse nofun
  | .pynone, .bool _ => isFalse nofun
  | .pynone, .pynone => isTrue rfl
  | .pynone, .list _ => isFalse nofun
  | .pynone, .dict _ => isFalse nofun
  | .list _, .str _ => isFalse nofun
  | .list _, .int _ => isFalse nofun
  | .list _, .bool _ => isFalse nofun
  | .list _, .pynone => isFalse nofun
  | .list as, .list bs =>
      match PyVal.decEqList as bs with
      | isTrue h => isTrue (by rw [h])
      | isFalse h => isFalse (by intro hh; injection hh; contradiction)
  | .list _, .dict _ => isFalse nofun
  | .dict _, .str _ => isFalse nofun
  | .dict _, .int _ => isFalse nofun
  | .dict _, .bool _ => isFalse nofun
  | .dict _, .pynone => isFalse nofun
  | .dict _, .list _ => isFalse nofun
  | .dict as, .dict bs =>
      match PyVal.decEqEntries as bs with
      | isTrue h => isTrue (by rw [h])
      | isFalse h => isFalse (by intro hh; injection hh; contradiction)

/-- Decidable equality for lists of `PyVal`. -/
def PyVal.decEqList : (as bs : List PyVal) → Decidable (as = bs)
  | [], [] => isTrue rfl
  | _ :: _, [] => isFalse nofun
  | [], _ :: _ => isFalse nofun
  | a :: as, b :: bs =>
      match PyVal.decEq a b with
      | isFalse h => isFalse (by intro hh; injection hh; contradiction)
      | isTrue h =>
        match PyVal.decEqList as bs with
        | isTrue h2 => isTrue (by rw [h, h2])
        | isFalse h2 => isFalse (by intro hh; injection hh; contradiction)

/-- Decidable equality for dict entry lists. -/
def PyVal.decEqEntries : (as bs : List (String × PyVal)) → Decidable (as = bs)
  | [], [] => isTrue rfl
  | _ :: _, [] => isFalse nofun
  | [], _ :: _ => isFalse nofun
  | (ka, va) :: as, (kb, vb) :: bs =>
      if hk : ka = kb then
        match PyVal.decEq va vb with
        | isFalse h => isFalse (by intro hh; injection hh with h1 h2; injection h1; contradiction)
        | isTrue h =>
          match PyVal.decEqEntries as bs with
          | isTrue h2 => isTrue (by rw [hk, h, h2])
          | isFalse h2 => isFalse (by intro hh; injection hh; contradiction)
      else isFalse (by intro hh; injection hh with h1 h2; injection h1; contradiction)

end

instance : DecidableEq PyVal := PyVal.decEq

/-- Decidable equality for `Except` results, used to evaluate the embedded
operations on concrete inputs. -/
def exceptDecEq {ε α : Type} [DecidableEq ε] [DecidableEq α] :
    (a b : Except ε α) → Decidable (a = b)
  | .ok a, .ok b =>
      if h : a = b then isTrue (by rw [h]) else isFalse (by intro hh; injection hh; contradiction)
  | .ok _, .error _ => isFalse nofun
  | .error _, .ok _ => isFalse nofun
  | .error a, .error b =>
      if h : a = b then isTrue (by rw [h]) else isFalse (by intro hh; injection hh; contradiction)

instance {ε α : Type} [DecidableEq ε] [DecidableEq α] : DecidableEq (Except ε α) := exceptDecEq

/-- Whether a Python value is hashable (usable as a `set` element or checked
for membership in a set).  Lists and dicts are unhashable. -/
def PyVal.hashable : PyVal → Bool
  | .list _ => false
  | .dict _ => false
  | _ => true

/-- Subscripting `v[key]` with a string key, as in `idea["id"]`.
On a dict it looks the key up (raising `KeyError` when absent); on any other
value it raises `TypeError`, with the message Python uses for strings when the
value is a string. -/
def PyVal.getItem : PyVal → String → Except PyException PyVal
  | .dict entries, k =>
      match entries.lookup k with
      | some v => .ok v
      | Option.none => .error (.keyError k)
  | .str _, _ => .error (.typeError "string indices must be integers")
  | .list _, _ => .error (.typeError "list indices must be integers or slices")
  | _, _ => .error (.typeError "object is not subscriptable")

/-- `v.get(key, default)`, as in `idea.get("tags", [])` and
`data.get("ideas", [])`.  Only dicts have a `get` method; on any other value
Python raises `AttributeError`. -/
def PyVal.getDefault : PyVal → String → PyVal → Except PyException PyVal
  | .dict entries, k, d => .ok ((entries.lookup k).getD d)
  | _, _, _ => .error (.attributeError "object has no attribute get")

/-- The sequence of values produced by iterating a Python value (`for x in v`).
Iterating a dict yields its keys (as strings, in insertion order); iterating a
string yields its one-character substrings; non-iterables raise `TypeError`. -/
def pyIterElems : PyVal → Except PyException (List PyVal)
  | .list elems => .ok elems
  | .dict entries => .ok (entries.map (fun kv => PyVal.str kv.1))
  | .str s => .ok (s.toList.map (fun c => PyVal.str (String.mk [c])))
  | _ => .error (.typeError "object is not iterable")

/-- `s.add(x)` on a Python set, modelled as a duplicate-free list. -/
def setAdd (s : List PyVal) (x : PyVal) : List PyVal :=
  if x ∈ s then s else x :: s

/-- `set(iterable)`: fold the elements into a set, raising `TypeError` on the
first unhashable element, starting from the accumulator `acc`. -/
def toPySet (acc : List PyVal) : List PyVal → Except PyException (List PyVal)
  | [] => .ok acc
  | x :: xs =>
      if x.hashable then toPySet (setAdd acc x) xs
      else .error (.typeError "unhashable type")

/-! ## HTTP layer

`httpx` responses, `raise_for_status`, and the requests the skill's methods
construct.  A response is modelled by its status code and the outcome of
`resp.json()`; `raise_for_status` raises `HTTPStatusError` exactly when the
status is not a 2xx success status. -/

/-- An HTTP response as observed by the client: the status code and the result
of parsing the body as JSON. -/
structure HttpResponse where
  status : Nat
  json : Except PyException PyVal

/-- httpx success statuses (`is_success`): 2xx. -/
def isSuccessStatus (s : Nat) : Bool :=
  200 ≤ s && s < 300

/-- `resp.raise_for_status()`: raise `HTTPStatusError` on a non-success
status. -/
def raiseForStatus (r : HttpResponse) : Except PyException Unit :=
  if isSuccessStatus r.status then .ok () else .error (.httpStatusError r.status)

/-- The shared `resp.raise_for_status(); return resp.json()` pattern used by
every remote operation except `health_check` and `get_stats`: the status check
comes first, so on a non-success status the exception is raised before the
body is parsed. -/
def checkedJson (r : HttpResponse) : Except PyException PyVal :=
  match raiseForStatus r with
  | .error e => .error e
  | .ok _ => r.json

/-- An outgoing HTTP request as the skill builds it: method, URL, optional
JSON body, and headers. -/
structure HttpRequest where
  method : String
  url : String
  jsonBody : Option PyVal
  headers : List (String × String)
deriving DecidableEq

/-! ## Configuration and session state

`ClawColabConfig` and the mutable state of `ClawColabSkill.__init__`:
`self.config`, `self._known_idea_ids` and `self._callbacks`.  The skill object
has no token or identity field; tokens are parameters of the individual
methods. -/

/-- `DEFAULT_URL` from the source. -/
def DEFAULT_URL : String := "http://178.156.205.129:8000"

/-- `POLL_INTERVAL` from the source. -/
def POLL_INTERVAL : Nat := 60

/-- The `ClawColabConfig` dataclass. -/
structure ClawColabConfig where
  server_url : String := DEFAULT_URL
  poll_interval : Nat := POLL_INTERVAL
  interests : List String := []
  notify_on_vote : Bool := true
  notify_on_comment : Bool := true
  auto_vote : Bool := false
deriving DecidableEq, Repr

/-- The mutable state a `ClawColabSkill` instance owns (from `__init__`):
the configuration, the seen-set `_known_idea_ids`, and whether a truthy
`'activity'` callback is registered in `_callbacks`.  There is no token or
bot-identity field. -/
structure ClawColabSkillState where
  config : ClawColabConfig
  known_idea_ids : List PyVal
  hasActivityCallback : Bool
deriving DecidableEq

/-- The state of a freshly constructed skill: default config, empty seen-set,
empty callback registry. -/
def initialSkillState : ClawColabSkillState :=
  { config := {}, known_idea_ids := [], hasActivityCallback := false }

/-- Rendering of a token in the f-string `f"Bearer {token}"`: Python prints
`None` as the four characters `None`. -/
def fstrToken : Option String → String
  | Option.none => "None"
  | some s => s

/-- Python truthiness of an optional string (`if token:`): `None` and the
empty string are falsy. -/
def pyTruthyStr : Option String → Bool
  | Option.none => false
  | some s => !s.isEmpty

/-- Optional string as a JSON value (absent becomes `null`). -/
def optStr : Option String → PyVal
  | Option.none => .pynone
  | some s => .str s

/-! ## Request builders

One definition per skill method whose outgoing request the claims examine.
Each mirrors the corresponding `self.http.post`/`self.http.get` call. -/

/-- The request built by `register` (lines 60-66): a POST with no
Authorization header. -/
def registerRequest (cfg : ClawColabConfig) (name bot_type : String)
    (capabilities : List String) (endpoint : Option String) : HttpRequest :=
  { method := "POST"
    url := cfg.server_url ++ "/api/bots/register"
    jsonBody := some (.dict [("name", .str name), ("type", .str bot_type),
      ("capabilities", .list (capabilities.map PyVal.str)), ("endpoint", optStr endpoint)])
    headers := [] }

/-- The effect of `register` on the skill: the request is sent, the response
is status-checked and parsed, and the skill state is returned unchanged — the
method body assigns nothing to `self`. -/
def registerRun (s : ClawColabSkillState) (resp : HttpResponse) :
    ClawColabSkillState × Except PyException PyVal :=
  (s, checkedJson resp)

/-- The request built by `create_idea` (lines 70-78): the Authorization header
is present only when the `token` argument is truthy
(`... if token else {}`). -/
def createIdeaRequest (cfg : ClawColabConfig) (title description : String)
    (tags : List String) (token : Option String) : HttpRequest :=
  { method := "POST"
    url := cfg.server_url ++ "/api/ideas"
    jsonBody := some (.dict [("title", .str title), ("description", .str description),
      ("tags", .list (tags.map PyVal.str))])
    headers := if pyTruthyStr token then [("Authorization", "Bearer " ++ fstrToken token)] else [] }

/-- The request built by `create_task` (lines 154-162): same conditional
Authorization header as `create_idea`. -/
def createTaskRequest (cfg : ClawColabConfig) (idea_id title description : String)
    (token : Option String) : HttpRequest :=
  { method := "POST"
    url := cfg.server_url ++ "/api/tasks"
    jsonBody := some (.dict [("idea_id", .str idea_id), ("title", .str title),
      ("description", .str description)])
    headers := if pyTruthyStr token then [("Authorization", "Bearer " ++ fstrToken token)] else [] }

/-- The request built by `create_bounty` (lines 198-207): same conditional
Authorization header as `create_idea`. -/
def createBountyRequest (cfg : ClawColabConfig) (task_id : String) (amount : Int)
    (currency : String) (token : Option String) : HttpRequest :=
  { method := "POST"
    url := cfg.server_url ++ "/api/bounties"
    jsonBody := some (.dict [("task_id", .str task_id), ("amount", .int amount),
      ("currency", .str currency)])
    headers := if pyTruthyStr token then [("Authorization", "Bearer " ++ fstrToken token)] else [] }

/-- The request built by `upvote_idea` (lines 125-132): the Authorization
header is built unconditionally from the `token` argument. -/
def upvoteIdeaRequest (cfg : ClawColabConfig) (idea_id : String)
    (token : Option String) : HttpRequest :=
  { method := "POST"
    url := cfg.server_url ++ "/api/ideas/" ++ idea_id ++ "/vote"
    jsonBody := some (.dict [])
    headers := [("Authorization", "Bearer " ++ fstrToken token)] }

/-- The request built by `get_activity` (lines 270-276): a GET whose
Authorization header is built unconditionally from the `token` argument. -/
def getActivityRequest (cfg : ClawColabConfig) (token : Option String) : HttpRequest :=
  { method := "GET"
    url := cfg.server_url ++ "/api/activity"
    jsonBody := Option.none
    headers := [("Authorization", "Bearer " ++ fstrToken token)] }

/-- The request built by `comment_idea` (lines 143-150): the content is placed
in the body unexamined — the method performs no length check. -/
def commentIdeaRequest (cfg : ClawColabConfig) (idea_id content : String)
    (token : Option String) : HttpRequest :=
  { method := "POST"
    url := cfg.server_url ++ "/api/ideas/" ++ idea_id ++ "/comment"
    jsonBody := some (.dict [("content", .str content)])
    headers := [("Authorization", "Bearer " ++ fstrToken token)] }

/-- The local behaviour of a skill method before the server answers: any
locally raised error, and the requests put on the wire. -/
structure LocalCallTrace where
  localError : Option PyException
  requestsSent : List HttpRequest
deriving DecidableEq

/-- The local behaviour of `comment_idea` (lines 143-150): the body contains
no validation of any kind, so no local error is ever raised and exactly one
request is always sent. -/
def commentIdeaCall (cfg : ClawColabConfig) (idea_id content : String)
    (token : Option String) : LocalCallTrace :=
  { localError := Option.none
    requestsSent := [commentIdeaRequest cfg idea_id content token] }

/-! ## Interest matcher and poll cycle

`_poll_loop` (lines 297-307).  The fetch is
`self.get_ideas(status="pending", limit=10)`, whose documented return shape is
the dict `{"ideas": [...], "count": N, "total": N, "has_more": bool}`; the
loop then runs `for idea in ideas:` over that parsed value.  `pollCycleJson`
takes the parsed JSON value the fetch produced and returns the final seen-set,
the dispatched `(activity_kind, item)` pairs in order, and the exception that
aborted the cycle, if any. -/

/-- The matcher expression of line 302-304:
`set(idea.get("tags", [])).intersection(set(self.config.interests)) if
self.config.interests else True`, reduced to the truthiness that line 305
tests.  When `interests` is empty only the `True` branch of the conditional
expression is evaluated; otherwise the tag set is built (which can raise) and
the result is truthy iff the intersection is non-empty. -/
def evalMatches (interests : List String) (idea : PyVal) : Except PyException Bool :=
  if interests.isEmpty then .ok true
  else
    match idea.getDefault "tags" (.list []) with
    | .error e => .error e
    | .ok tagsVal =>
      match pyIterElems tagsVal with
      | .error e => .error e
      | .ok tagElems =>
        match toPySet [] tagElems with
        | .error e => .error e
        | .ok tagSet =>
          match toPySet [] (interests.map PyVal.str) with
          | .error e => .error e
          | .ok iSet => .ok (!(tagSet.filter (fun t => decide (t ∈ iSet))).isEmpty)

/-- Outcome of (part of) a poll cycle: the seen-set after it, the dispatched
`(activity_kind, item)` pairs in order, and the exception that aborted it, if
any.  Mutations performed before an exception persist, as they do in
Python. -/
structure CycleResult where
  seen : List PyVal
  dispatched : List (String × PyVal)
  err : Option PyException
deriving DecidableEq

/-- The body of `_poll_loop`'s `for` loop for one element (lines 300-306):
evaluate `idea["id"]`, check membership in `_known_idea_ids` (unhashable ids
raise, as Python's set membership does), and for new ids mark seen *first*,
then evaluate the matcher, then dispatch `('new_idea', idea)` when the match
is truthy and an `'activity'` callback is registered. -/
def processIdea (interests : List String) (hasHandler : Bool) (seen : List PyVal)
    (idea : PyVal) : CycleResult :=
  match idea.getItem "id" with
  | .error e => ⟨seen, [], some e⟩
  | .ok ideaId =>
    if ideaId.hashable = false then ⟨seen, [], some (.typeError "unhashable type")⟩
    else if ideaId ∈ seen then ⟨seen, [], Option.none⟩
    else
      match evalMatches interests idea with
      | .error e => ⟨setAdd seen ideaId, [], some e⟩
      | .ok m =>
        if m && hasHandler then ⟨setAdd seen ideaId, [("new_idea", idea)], Option.none⟩
        else ⟨setAdd seen ideaId, [], Option.none⟩

/-- `_poll_loop`'s `for` loop over the already-iterated elements: process each
element in order, stopping at the first exception (whose state changes so far
persist). -/
def processIdeas (interests : List String) (hasHandler : Bool) (seen : List PyVal) :
    List PyVal → CycleResult
  | [] => ⟨seen, [], Option.none⟩
  | idea :: rest =>
    let r := processIdea interests hasHandler seen idea
    match r.err with
    | some e => ⟨r.seen, r.dispatched, some e⟩
    | Option.none =>
      let r' := processIdeas interests hasHandler r.seen rest
      ⟨r'.seen, r.dispatched ++ r'.dispatched, r'.err⟩

/-- One poll cycle (`_poll_loop`, lines 297-307) applied to the parsed JSON
value returned by the fetch: iterate it (`for idea in ideas:` — over a dict
this yields its keys) and run the loop body on each element. -/
def pollCycleJson (interests : List String) (hasHandler : Bool) (seen : List PyVal)
    (ideasJson : PyVal) : CycleResult :=
  match pyIterElems ideasJson with
  | .error e => ⟨seen, [], some e⟩
  | .ok items => processIdeas interests hasHandler seen items

/-- Number of dispatches in a dispatch list whose item carries the id `i`. -/
def dispatchCountFor (i : PyVal) (ds : List (String × PyVal)) : Nat :=
  (ds.filter (fun d => decide (d.2.getItem "id" = .ok i))).length

/-! ## Poll loop

`start_polling` (lines 286-295): `while True:` around
`try: await self._poll_loop(interval) except Exception as e: print(...);
await asyncio.sleep(interval)`.  On success `_poll_loop` itself ends with
`await asyncio.sleep(interval)` (line 307); on a caught exception the
`except` branch prints and sleeps the same `interval`.  An exception that
does not derive `Exception` (e.g. `asyncio.CancelledError`) is not caught
and propagates, ending the loop. -/

/-- What one iteration of the `while True:` body does, as a function of the
cycle's outcome: the exception caught and reported (if any), the duration
slept, and whether the loop proceeds to the next iteration. -/
structure PollIterEffect where
  caught : Option PyException
  sleptFor : Nat
  loopContinues : Bool
deriving DecidableEq, Repr

/-- One iteration of `start_polling`'s `while True:` body. -/
def startPollingIter (interval : Nat) (outcome : Except PyException Unit) : PollIterEffect :=
  match outcome with
  | .ok _ => ⟨Option.none, interval, true⟩
  | .error e =>
    if e.derivesException then ⟨some e, interval, true⟩
    else ⟨Option.none, 0, false⟩

/-- Whether the loop reaches its `n`-th iteration, given the outcome of each
cycle: iteration 0 is always entered, and iteration `n+1` is entered iff
iteration `n` was entered and its body continued the loop. -/
def startPollingReaches (interval : Nat) (outcomes : Nat → Except PyException Unit) :
    Nat → Bool
  | 0 => true
  | n + 1 =>
      startPollingReaches interval outcomes n
        && (startPollingIter interval (outcomes n)).loopContinues

/-- The poll-cycle failure classes the specification names: transport errors,
malformed responses (JSON decode failures and non-success statuses), the
`TypeError`/`KeyError`/`AttributeError` family raised while handling the
parsed body, and exceptions propagating out of the caller's handler.
External cancellation is not a cycle failure. -/
def isCycleFailure : PyException → Bool
  | .transportError _ => true
  | .jsonDecodeError => true
  | .httpStatusError _ => true
  | .typeError _ => true
  | .keyError _ => true
  | .attributeError _ => true
  | .handlerException _ => true
  | .cancelledError => false

/-! ## Per-endpoint response handling

Every method that performs a request runs `resp.raise_for_status()` followed
by `resp.json()` — except `health_check` (lines 311-313) and `get_stats`
(lines 315-317), which return `resp.json()` with no status check. -/

/-- The remote operations of the skill, one per method that performs an HTTP
request. -/
inductive RemoteOp where
  | register | create_idea | get_ideas | get_trending | get_recommended
  | express_interest | upvote_idea | downvote_idea | comment_idea
  | create_task | get_tasks | claim_task | complete_task
  | create_bounty | get_bounties | get_bots | claim_bounty
  | send_github_webhook | get_github_repo | get_activity | get_trust_score
  | health_check | get_stats
deriving DecidableEq, Repr

/-- The parsed body each operation obtains from a response, before any
per-operation post-processing: `health_check` and `get_stats` call
`resp.json()` directly; every other operation calls
`resp.raise_for_status()` first. -/
def opParsedBody : RemoteOp → HttpResponse → Except PyException PyVal
  | .health_check, r => r.json
  | .get_stats, r => r.json
  | _, r => checkedJson r

/-- `get_ideas_list` (lines 92-95): the checked, parsed body of `get_ideas`,
then `data.get("ideas", [])`. -/
def getIdeasListResult (r : HttpResponse) : Except PyException PyVal :=
  match checkedJson r with
  | .error e => .error e
  | .ok data => data.getDefault "ideas" (.list [])

/-- `get_tasks_list` (lines 173-176): the checked, parsed body of `get_tasks`,
then `data.get("tasks", [])`. -/
def getTasksListResult (r : HttpResponse) : Except PyException PyVal :=
  match checkedJson r with
  | .error e => .error e
  | .ok data => data.getDefault "tasks" (.list [])

/-- `get_bounties_list` (lines 218-221): the checked, parsed body of
`get_bounties`, then `data.get("bounties", [])`. -/
def getBountiesListResult (r : HttpResponse) : Except PyException PyVal :=
  match checkedJson r with
  | .error e => .error e
  | .ok data => data.getDefault "bounties" (.list [])

/-- `get_bots_list` (lines 232-235): the checked, parsed body of `get_bots`,
then `data.get("bots", [])`. -/
def getBotsListResult (r : HttpResponse) : Except PyException PyVal :=
  match checkedJson r with
  | .error e => .error e
  | .ok data => data.getDefault "bots" (.list [])

/-! ## Concrete fixtures used by counterexamples and witnesses -/

/-- A pending idea with id `"1"` and tags `["a"]`, as an item of the fetch
response. -/
def c2Item : PyVal :=
  .dict [("id", .str "1"), ("tags", .list [.str "a"])]

/-- A fetch response body of the shape `get_ideas` documents:
`{"ideas": [...], "count": N, "total": N, "has_more": bool}` containing one
new idea that matches the interest `"a"`. -/
def c2DictBody : PyVal :=
  .dict [("ideas", .list [c2Item]), ("count", .int 1), ("total", .int 1),
    ("has_more", .bool false)]

/-- A comment content of 501 characters. -/
def c6Content : String :=
  String.mk (List.replicate 501 'a')

/-- A successful registration response carrying token `"T"`. -/
def c7RegisterResp : HttpResponse :=
  { status := 200
    json := .ok (.dict [("id", .str "bot-1"), ("token", .str "T"),
      ("trust_score", .int 0), ("status", .str "active")]) }

/-! ## Helper lemmas -/

theorem mem_setAdd {s : List PyVal} {x y : PyVal} :
    y ∈ setAdd s x ↔ y = x ∨ y ∈ s := by
  unfold setAdd
  by_cases h : x ∈ s
  · simp only [h, if_true]
    constructor
    · exact Or.inr
    · rintro (rfl | hy)
      · exact h
      · exact hy
  · simp [h, List.mem_cons]

theorem toPySet_all_hashable {l : List PyVal} (acc : List PyVal)
    (h : ∀ x ∈ l, x.hashable = true) :
    toPySet acc l = .ok (l.foldl setAdd acc) := by
  induction l generalizing acc with
  | nil => rfl
  | cons x xs ih =>
      have hx : x.hashable = true := h x (List.mem_cons_self x xs)
      simp only [toPySet, hx, if_true, List.foldl_cons]
      exact ih (setAdd acc x) (fun y hy => h y (List.mem_cons_of_mem x hy))

theorem mem_foldl_setAdd {l : List PyVal} {acc : List PyVal} {y : PyVal} :
    y ∈ l.foldl setAdd acc ↔ y ∈ acc ∨ y ∈ l := by
  induction l generalizing acc with
  | nil => simp
  | cons x xs ih =>
      simp only [List.foldl_cons, ih, mem_setAdd, List.mem_cons]
      tauto

theorem processIdea_characterization (interests : List String) (hasHandler : Bool)
    (seen : List PyVal) (idea : PyVal) :
    (∃ e, idea.getItem "id" = .error e ∧
        processIdea interests hasHandler seen idea = ⟨seen, [], some e⟩)
    ∨ (∃ i, idea.getItem "id" = .ok i ∧ i.hashable = false ∧
        processIdea interests hasHandler seen idea =
          ⟨seen, [], some (.typeError "unhashable type")⟩)
    ∨ (∃ i, idea.getItem "id" = .ok i ∧ i.hashable = true ∧ i ∈ seen ∧
        processIdea interests hasHandler seen idea = ⟨seen, [], Option.none⟩)
    ∨ (∃ i e, idea.getItem "id" = .ok i ∧ i.hashable = true ∧ i ∉ seen ∧
        evalMatches interests idea = .error e ∧
        processIdea interests hasHandler seen idea = ⟨setAdd seen i, [], some e⟩)
    ∨ (∃ i m, idea.getItem "id" = .ok i ∧ i.hashable = true ∧ i ∉ seen ∧
        evalMatches interests idea = .ok m ∧
        ((m && hasHandler) = true ∧
            processIdea interests hasHandler seen idea =
              ⟨setAdd seen i, [("new_idea", idea)], Option.none⟩
          ∨ (m && hasHandler) = false ∧
            processIdea interests hasHandler seen idea =
              ⟨setAdd seen i, [], Option.none⟩)) := by
  unfold processIdea
  cases hid : idea.getItem "id" with
  | error e => exact Or.inl ⟨e, rfl, rfl⟩
  | ok i =>
    dsimp only
    by_cases hh : i.hashable = false
    · rw [if_pos hh]
      exact Or.inr (Or.inl ⟨i, rfl, hh, rfl⟩)
    · have hh' : i.hashable = true := by
        cases hhb : i.hashable
        · exact absurd hhb hh
        · rfl
      rw [if_neg hh]
      by_cases hm : i ∈ seen
      · rw [if_pos hm]
        exact Or.inr (Or.inr (Or.inl ⟨i, rfl, hh', hm, rfl⟩))
      · rw [if_neg hm]
        cases hev : evalMatches interests idea with
        | error e =>
            exact Or.inr (Or.inr (Or.inr (Or.inl ⟨i, e, rfl, hh', hm, rfl, rfl⟩)))
        | ok m =>
            dsimp only
            by_cases hb : (m && hasHandler) = true
            · rw [if_pos hb]
              exact Or.inr (Or.inr (Or.inr (Or.inr
                ⟨i, m, rfl, hh', hm, rfl, Or.inl ⟨hb, rfl⟩⟩)))
            · rw [if_neg hb]
              have hb' : (m && hasHandler) = false := by
                cases hbb : (m && hasHandler)
                · rfl
                · exact absurd hbb hb
              exact Or.inr (Or.inr (Or.inr (Or.inr
                ⟨i, m, rfl, hh', hm, rfl, Or.inr ⟨hb', rfl⟩⟩)))

theorem processIdea_seen_mono (interests : List String) (hasHandler : Bool)
    (seen : List PyVal) (idea : PyVal) {x : PyVal} (hx : x ∈ seen) :
    x ∈ (processIdea interests hasHandler seen idea).seen := by
  rcases processIdea_characterization interests hasHandler seen idea with
    ⟨e, _, heq⟩ | ⟨i, _, _, heq⟩ | ⟨i, _, _, _, heq⟩ | ⟨i, e, _, _, _, _, heq⟩ |
    ⟨i, m, _, _, _, _, ⟨_, heq⟩ | ⟨_, heq⟩⟩ <;>
  rw [heq] <;> first | exact hx | exact mem_setAdd.mpr (Or.inr hx)

theorem processIdea_skip (interests : List String) (hasHandler : Bool)
    {seen : List PyVal} {idea i : PyVal}
    (hid : idea.getItem "id" = .ok i) (hh : i.hashable = true) (hm : i ∈ seen) :
    processIdea interests hasHandler seen idea = ⟨seen, [], Option.none⟩ := by
  rcases processIdea_characterization interests hasHandler seen idea with
    ⟨e, he, _⟩ | ⟨j, hj, hjh, _⟩ | ⟨j, hj, _, _, heq⟩ | ⟨j, e, hj, _, hjm, _, _⟩ |
    ⟨j, m, hj, _, hjm, _, _⟩
  · rw [hid] at he
    injection he
  · rw [hid] at hj
    injection hj with hji
    rw [← hji] at hjh
    simp [hh] at hjh
  · exact heq
  · rw [hid] at hj
    injection hj with hji
    rw [← hji] at hjm
    exact absurd hm hjm
  · rw [hid] at hj
    injection hj with hji
    rw [← hji] at hjm
    exact absurd hm hjm

theorem processIdeas_seen_mono (interests : List String) (hasHandler : Bool)
    (items : List PyVal) (seen : List PyVal) {x : PyVal} (hx : x ∈ seen) :
    x ∈ (processIdeas interests hasHandler seen items).seen := by
  induction items generalizing seen with
  | nil => exact hx
  | cons idea rest ih =>
      simp only [processIdeas]
      cases herr : (processIdea interests hasHandler seen idea).err with
      | some e => exact processIdea_seen_mono interests hasHandler seen idea hx
      | none => exact ih _ (processIdea_seen_mono interests hasHandler seen idea hx)

theorem processIdeas_marks_head (interests : List String) (hasHandler : Bool)
    (seen : List PyVal) (rest : List PyVal) {idea i : PyVal}
    (hid : idea.getItem "id" = .ok i) (hh : i.hashable = true) :
    i ∈ (processIdeas interests hasHandler seen (idea :: rest)).seen := by
  simp only [processIdeas]
  have hmem : i ∈ (processIdea interests hasHandler seen idea).seen := by
    by_cases hm : i ∈ seen
    · exact processIdea_seen_mono interests hasHandler seen idea hm
    · rcases processIdea_characterization interests hasHandler seen idea with
        ⟨e, he, _⟩ | ⟨j, hj, hjh, _⟩ | ⟨j, hj, _, hjm, _⟩ | ⟨j, e, hj, _, _, _, heq⟩ |
        ⟨j, m, hj, _, _, _, ⟨_, heq⟩ | ⟨_, heq⟩⟩
      · rw [hid] at he
        injection he
      · rw [hid] at hj
        injection hj with hji
        rw [← hji] at hjh
        simp [hh] at hjh
      · rw [hid] at hj
        injection hj with hji
        rw [← hji] at hjm
        exact absurd hjm hm
      · rw [hid] at hj
        injection hj with hji
        rw [heq, ← hji]
        exact mem_setAdd.mpr (Or.inl rfl)
      · rw [hid] at hj
        injection hj with hji
        rw [heq, ← hji]
        exact mem_setAdd.mpr (Or.inl rfl)
      · rw [hid] at hj
        injection hj with hji
        rw [heq, ← hji]
        exact mem_setAdd.mpr (Or.inl rfl)
  cases herr : (processIdea interests hasHandler seen idea).err with
  | some e => exact hmem
  | none => exact processIdeas_seen_mono interests hasHandler rest _ hmem

theorem processIdeas_cons_err (interests : List String) (hasHandler : Bool)
    {seen : List PyVal} {idea : PyVal} {rest : List PyVal} {e : PyException}
    (h : (processIdea interests hasHandler seen idea).err = some e) :
    processIdeas interests hasHandler seen (idea :: rest) =
      ⟨(processIdea interests hasHandler seen idea).seen,
       (processIdea interests hasHandler seen idea).dispatched, some e⟩ := by
  simp only [processIdeas, h]

theorem processIdeas_cons_ok (interests : List String) (hasHandler : Bool)
    {seen : List PyVal} {idea : PyVal} {rest : List PyVal}
    (h : (processIdea interests hasHandler seen idea).err = Option.none) :
    processIdeas interests hasHandler seen (idea :: rest) =
      ⟨(processIdeas interests hasHandler
          (processIdea interests hasHandler seen idea).seen rest).seen,
       (processIdea interests hasHandler seen idea).dispatched ++
         (processIdeas interests hasHandler
           (processIdea interests hasHandler seen idea).seen rest).dispatched,
       (processIdeas interests hasHandler
         (processIdea interests hasHandler seen idea).seen rest).err⟩ := by
  simp only [processIdeas, h]

theorem processIdeas_ok_ids (interests : List String) (hasHandler : Bool)
    (items : List PyVal) (seen : List PyVal)
    (hok : (processIdeas interests hasHandler seen items).err = Option.none) :
    ∀ idea ∈ items, ∃ i, idea.getItem "id" = .ok i ∧ i.hashable = true ∧
      i ∈ (processIdeas interests hasHandler seen items).seen := by
  induction items generalizing seen with
  | nil =>
      intro idea h
      exact absurd h (List.not_mem_nil idea)
  | cons idea rest ih =>
      cases herr : (processIdea interests hasHandler seen idea).err with
      | some e =>
          rw [processIdeas_cons_err interests hasHandler herr] at hok
          simp at hok
      | none =>
          rw [processIdeas_cons_ok interests hasHandler herr] at hok
          intro idea' hmem
          rcases List.mem_cons.mp hmem with rfl | hmem'
          · rcases processIdea_characterization interests hasHandler seen idea' with
              ⟨e, _, heq⟩ | ⟨j, _, _, heq⟩ | ⟨j, hj, hjh, hjm, heq⟩ |
              ⟨j, e, _, _, _, _, heq⟩ | ⟨j, m, hj, hjh, hjm, _, ⟨_, heq⟩ | ⟨_, heq⟩⟩
            · rw [heq] at herr
              simp at herr
            · rw [heq] at herr
              simp at herr
            · exact ⟨j, hj, hjh,
                processIdeas_marks_head interests hasHandler seen rest hj hjh⟩
            · rw [heq] at herr
              simp at herr
            · exact ⟨j, hj, hjh,
                processIdeas_marks_head interests hasHandler seen rest hj hjh⟩
            · exact ⟨j, hj, hjh,
                processIdeas_marks_head interests hasHandler seen rest hj hjh⟩
          · obtain ⟨i, hid, hh, hseen⟩ := ih _ hok idea' hmem'
            refine ⟨i, hid, hh, ?_⟩
            rw [processIdeas_cons_ok interests hasHandler herr]
            exact hseen

theorem processIdeas_all_seen (interests : List String) (hasHandler : Bool)
    (items : List PyVal) (seen : List PyVal)
    (h : ∀ idea ∈ items, ∃ i, idea.getItem "id" = .ok i ∧ i.hashable = true ∧ i ∈ seen) :
    processIdeas interests hasHandler seen items = ⟨seen, [], Option.none⟩ := by
  induction items with
  | nil => rfl
  | cons idea rest ih =>
      obtain ⟨i, hid, hh, hm⟩ := h idea (List.mem_cons_self idea rest)
      have hskip := processIdea_skip interests hasHandler hid hh hm
      have hrest := ih (fun idea' hmem => h idea' (List.mem_cons_of_mem idea hmem))
      simp only [processIdeas, hskip, hrest]
      rfl

theorem dispatchCountFor_append (i : PyVal) (ds1 ds2 : List (String × PyVal)) :
    dispatchCountFor i (ds1 ++ ds2) =
      dispatchCountFor i ds1 + dispatchCountFor i ds2 := by
  simp [dispatchCountFor, List.filter_append]

theorem dispatchCountFor_single_eq {idea i : PyVal} (k : String)
    (hj : idea.getItem "id" = .ok i) :
    dispatchCountFor i [(k, idea)] = 1 := by
  simp [dispatchCountFor, hj]

theorem dispatchCountFor_single_ne {idea i j : PyVal} (k : String)
    (hj : idea.getItem "id" = .ok j) (hne : ¬ j = i) :
    dispatchCountFor i [(k, idea)] = 0 := by
  simp [dispatchCountFor, hj, hne]

theorem processIdeas_count_zero (interests : List String) (hasHandler : Bool)
    (items : List PyVal) (i : PyVal) :
    ∀ seen : List PyVal, i ∈ seen →
      dispatchCountFor i (processIdeas interests hasHandler seen items).dispatched = 0 := by
  induction items with
  | nil =>
      intro seen _
      rfl
  | cons idea rest ih =>
      intro seen hi
      rcases processIdea_characterization interests hasHandler seen idea with
        ⟨e, _, heq⟩ | ⟨j, _, _, heq⟩ | ⟨j, hj, hjh, hjm, heq⟩ |
        ⟨j, e, hj, hjh, hjm, hev, heq⟩ | ⟨j, m, hj, hjh, hjm, hev, ⟨hb, heq⟩ | ⟨hb, heq⟩⟩
      · rw [processIdeas_cons_err interests hasHandler (by rw [heq]), heq]
        rfl
      · rw [processIdeas_cons_err interests hasHandler (by rw [heq]), heq]
        rfl
      · rw [processIdeas_cons_ok interests hasHandler (by rw [heq]), heq]
        dsimp only
        rw [List.nil_append]
        exact ih seen hi
      · rw [processIdeas_cons_err interests hasHandler (by rw [heq]), heq]
        rfl
      · rw [processIdeas_cons_ok interests hasHandler (by rw [heq]), heq]
        dsimp only
        rw [dispatchCountFor_append]
        have h1 : dispatchCountFor i [("new_idea", idea)] = 0 :=
          dispatchCountFor_single_ne _ hj (fun hji => hjm (by rw [hji]; exact hi))
        rw [h1, ih (setAdd seen j) (mem_setAdd.mpr (Or.inr hi))]
      · rw [processIdeas_cons_ok interests hasHandler (by rw [heq]), heq]
        dsimp only
        rw [List.nil_append]
        exact ih (setAdd seen j) (mem_setAdd.mpr (Or.inr hi))

theorem processIdeas_count_le_one (interests : List String) (hasHandler : Bool)
    (items : List PyVal) (i : PyVal) :
    ∀ seen : List PyVal,
      dispatchCountFor i (processIdeas interests hasHandler seen items).dispatched ≤ 1
      ∧ (1 ≤ dispatchCountFor i (processIdeas interests hasHandler seen items).dispatched →
          i ∈ (processIdeas interests hasHandler seen items).seen) := by
  induction items with
  | nil =>
      intro seen
      exact ⟨by simp [processIdeas, dispatchCountFor], by simp [processIdeas, dispatchCountFor]⟩
  | cons idea rest ih =>
      intro seen
      rcases processIdea_characterization interests hasHandler seen idea with
        ⟨e, _, heq⟩ | ⟨j, _, _, heq⟩ | ⟨j, hj, hjh, hjm, heq⟩ |
        ⟨j, e, hj, hjh, hjm, hev, heq⟩ | ⟨j, m, hj, hjh, hjm, hev, ⟨hb, heq⟩ | ⟨hb, heq⟩⟩
      · rw [processIdeas_cons_err interests hasHandler (by rw [heq]), heq]
        exact ⟨by simp [dispatchCountFor], by simp [dispatchCountFor]⟩
      · rw [processIdeas_cons_err interests hasHandler (by rw [heq]), heq]
        exact ⟨by simp [dispatchCountFor], by simp [dispatchCountFor]⟩
      · rw [processIdeas_cons_ok interests hasHandler (by rw [heq]), heq]
        dsimp only
        rw [List.nil_append]
        exact ih seen
      · rw [processIdeas_cons_err interests hasHandler (by rw [heq]), heq]
        exact ⟨by simp [dispatchCountFor], by simp [dispatchCountFor]⟩
      · rw [processIdeas_cons_ok interests hasHandler (by rw [heq]), heq]
        dsimp only
        rw [dispatchCountFor_append]
        by_cases hji : j = i
        · have h1 : dispatchCountFor i [("new_idea", idea)] = 1 := by
            rw [← hji]
            exact dispatchCountFor_single_eq _ hj
          have h2 : dispatchCountFor i
              (processIdeas interests hasHandler (setAdd seen j) rest).dispatched = 0 := by
            refine processIdeas_count_zero interests hasHandler rest i (setAdd seen j) ?_
            rw [← hji]
            exact mem_setAdd.mpr (Or.inl rfl)
          rw [h1, h2]
          refine ⟨by omega, fun _ => ?_⟩
          refine processIdeas_seen_mono interests hasHandler rest (setAdd seen j) ?_
          rw [← hji]
          exact mem_setAdd.mpr (Or.inl rfl)
        · have h1 : dispatchCountFor i [("new_idea", idea)] = 0 :=
            dispatchCountFor_single_ne _ hj hji
          rw [h1, Nat.zero_add]
          exact ih (setAdd seen j)
      · rw [processIdeas_cons_ok interests hasHandler (by rw [heq]), heq]
        dsimp only
        rw [List.nil_append]
        exact ih (setAdd seen j)

theorem pollCycleJson_iter_err (interests : List String) (hasHandler : Bool)
    (seen : List PyVal) {resp : PyVal} {e : PyException}
    (h : pyIterElems resp = .error e) :
    pollCycleJson interests hasHandler seen resp = ⟨seen, [], some e⟩ := by
  simp only [pollCycleJson, h]

theorem pollCycleJson_iter_ok (interests : List String) (hasHandler : Bool)
    (seen : List PyVal) {resp : PyVal} {items : List PyVal}
    (h : pyIterElems resp = .ok items) :
    pollCycleJson interests hasHandler seen resp =
      processIdeas interests hasHandler seen items := by
  simp only [pollCycleJson, h]

theorem pollCycleJson_seen_mono (interests : List String) (hasHandler : Bool)
    (seen : List PyVal) (resp : PyVal) {x : PyVal} (hx : x ∈ seen) :
    x ∈ (pollCycleJson interests hasHandler seen resp).seen := by
  cases hit : pyIterElems resp with
  | error e =>
      rw [pollCycleJson_iter_err interests hasHandler seen hit]
      exact hx
  | ok items =>
      rw [pollCycleJson_iter_ok interests hasHandler seen hit]
      exact processIdeas_seen_mono interests hasHandler items seen hx

theorem pollCycleJson_count_le_one (interests : List String) (hasHandler : Bool)
    (seen : List PyVal) (resp : PyVal) (i : PyVal) :
    dispatchCountFor i (pollCycleJson interests hasHandler seen resp).dispatched ≤ 1 := by
  cases hit : pyIterElems resp with
  | error e =>
      rw [pollCycleJson_iter_err interests hasHandler seen hit]
      simp [dispatchCountFor]
  | ok items =>
      rw [pollCycleJson_iter_ok interests hasHandler seen hit]
      exact (processIdeas_count_le_one interests hasHandler items i seen).1

theorem pollCycleJson_count_mem (interests : List String) (hasHandler : Bool)
    (seen : List PyVal) (resp : PyVal) (i : PyVal)
    (h : 1 ≤ dispatchCountFor i (pollCycleJson interests hasHandler seen resp).dispatched) :
    i ∈ (pollCycleJson interests hasHandler seen resp).seen := by
  cases hit : pyIterElems resp with
  | error e =>
      rw [pollCycleJson_iter_err interests hasHandler seen hit] at h
      simp [dispatchCountFor] at h
  | ok items =>
      rw [pollCycleJson_iter_ok interests hasHandler seen hit] at h ⊢
      exact (processIdeas_count_le_one interests hasHandler items i seen).2 h

theorem pollCycleJson_count_zero (interests : List String) (hasHandler : Bool)
    (seen : List PyVal) (resp : PyVal) (i : PyVal) (hi : i ∈ seen) :
    dispatchCountFor i (pollCycleJson interests hasHandler seen resp).dispatched = 0 := by
  cases hit : pyIterElems resp with
  | error e =>
      rw [pollCycleJson_iter_err interests hasHandler seen hit]
      rfl
  | ok items =>
      rw [pollCycleJson_iter_ok interests hasHandler seen hit]
      exact processIdeas_count_zero interests hasHandler items i seen hi

/-! ## Claims -/

/-- C1.  The interest match used by the poll cycle (`_poll_loop`, lines
302-304): for every tag set `T`, an item with tags `T` matches iff the
configured interest set `I` is empty (no filter configured: every item
matches) or the intersection of `T` and `I` is non-empty. -/
theorem C1_interest_match (T I : List String) :
    evalMatches I (.dict [("tags", .list (T.map PyVal.str))]) =
      .ok (decide (I = [] ∨ ∃ t, t ∈ T ∧ t ∈ I)) := by
  by_cases hI : I = []
  · subst hI
    simp [evalMatches]
  · have hIe : I.isEmpty = false := by
      cases I with
      | nil => exact absurd rfl hI
      | cons a as => rfl
    have htags : PyVal.getDefault (.dict [("tags", .list (T.map PyVal.str))]) "tags" (.list []) =
        .ok (.list (T.map PyVal.str)) := by
      simp [PyVal.getDefault, List.lookup]
    have hhashT : ∀ x ∈ T.map PyVal.str, x.hashable = true := by
      intro x hx
      rcases List.mem_map.mp hx with ⟨t, _, rfl⟩
      rfl
    have hhashI : ∀ x ∈ I.map PyVal.str, x.hashable = true := by
      intro x hx
      rcases List.mem_map.mp hx with ⟨t, _, rfl⟩
      rfl
    simp only [evalMatches, hIe, Bool.false_eq_true, if_false, htags, pyIterElems,
      toPySet_all_hashable [] hhashT, toPySet_all_hashable [] hhashI]
    congr 1
    rw [Bool.eq_iff_iff]
    simp only [Bool.not_eq_true', List.isEmpty_eq_false, ne_eq, List.filter_eq_nil_iff,
      decide_eq_true_eq, not_forall, not_not, exists_prop]
    constructor
    · rintro ⟨x, hxT, hxI⟩
      have hxT' : x ∈ T.map PyVal.str :=
        (mem_foldl_setAdd.mp hxT).resolve_left (by simp)
      have hxI' : x ∈ I.map PyVal.str :=
        (mem_foldl_setAdd.mp hxI).resolve_left (by simp)
      rcases List.mem_map.mp hxT' with ⟨t, htT, rfl⟩
      rcases List.mem_map.mp hxI' with ⟨t', ht'I, he⟩
      have heq : t' = t := by injection he
      rw [heq] at ht'I
      exact Or.inr ⟨t, htT, ht'I⟩
    · rintro (rfl | ⟨t, htT, htI⟩)
      · exact absurd rfl hI
      · exact ⟨PyVal.str t, mem_foldl_setAdd.mpr (Or.inr (List.mem_map_of_mem _ htT)),
          mem_foldl_setAdd.mpr (Or.inr (List.mem_map_of_mem _ htI))⟩

/-- C2 (code bug).  `_poll_loop` fetches via `get_ideas`, whose documented
return shape is the dict `{"ideas": [...], "count": ..., "total": ...,
"has_more": ...}`, and then iterates that dict — which yields its keys.  On a
response of the documented shape containing one new matching idea, the first
iteration evaluates `"ideas"["id"]` and raises `TypeError`: nothing is marked
seen and the handler is never invoked.  Were the fetch result the item list
itself, the item would be dispatched — but with activity kind `"new_idea"`,
not the `"new_item"` the claim states. -/
theorem C2_cycle_crashes_on_documented_shape :
    pollCycleJson ["a"] true [] c2DictBody =
      ⟨[], [], some (.typeError "string indices must be integers")⟩
    ∧ pollCycleJson ["a"] true [] (.list [c2Item]) =
      ⟨[.str "1"], [("new_idea", c2Item)], Option.none⟩
    ∧ "new_idea" ≠ "new_item" := by
  refine ⟨?_, ?_, ?_⟩ <;> decide

set_option maxRecDepth 4000 in
/-- C6 (counterexample).  A comment of 501 characters raises no local error
and is sent to the remote in one request — `comment_idea` has no length
check, contradicting the claim that it fails locally with `ValidationError`
and sends zero requests. -/
theorem C6_counterexample :
    (commentIdeaCall {} "idea-1" c6Content (some "T")).localError = Option.none
    ∧ (commentIdeaCall {} "idea-1" c6Content (some "T")).requestsSent.length = 1
    ∧ c6Content.length = 501 := by
  refine ⟨rfl, rfl, ?_⟩
  decide

/-- C6 (amended).  `comment_idea` performs no local validation at all: for
every content, of any length, no local error is raised and exactly the one
comment request is sent to the remote. -/
theorem C6_no_local_validation (cfg : ClawColabConfig) (idea_id content : String)
    (token : Option String) :
    (commentIdeaCall cfg idea_id content token).localError = Option.none
    ∧ (commentIdeaCall cfg idea_id content token).requestsSent =
        [commentIdeaRequest cfg idea_id content token] :=
  ⟨rfl, rfl⟩

/-- C7 (counterexample).  A successful registration returning token `"T"`
leaves the skill state exactly as it was — no credential is stored — and a
subsequent `get_activity` call's Authorization header is built entirely from
the token its caller supplies (here `"U"`), so bearer credential `"T"` is not
carried unless the caller re-supplies it. -/
theorem C7_counterexample :
    (registerRun initialSkillState c7RegisterResp).1 = initialSkillState
    ∧ (registerRun initialSkillState c7RegisterResp).2 =
        .ok (.dict [("id", .str "bot-1"), ("token", .str "T"),
          ("trust_score", .int 0), ("status", .str "active")])
    ∧ (getActivityRequest initialSkillState.config (some "U")).headers =
        [("Authorization", "Bearer U")]
    ∧ ("Authorization", "Bearer T") ∉
        (getActivityRequest initialSkillState.config (some "U")).headers := by
  exact ⟨rfl, by decide, by decide, by decide⟩

/-- C7 (amended).  `register` never mutates the session: the skill state is
returned unchanged whatever the response (success or failure), the parsed
result (with the token) is handed back to the caller, and each authenticated
call (here `get_activity`) carries the bearer token passed explicitly to that
call. -/
theorem C7_register_stateless (s : ClawColabSkillState) (resp : HttpResponse)
    (tok : String) :
    (registerRun s resp).1 = s
    ∧ (registerRun s resp).2 = checkedJson resp
    ∧ (getActivityRequest s.config (some tok)).headers =
        [("Authorization", "Bearer " ++ tok)] :=
  ⟨rfl, rfl, rfl⟩

/-- C8 (counterexample).  `upvote_idea` builds the Authorization header
unconditionally: with no token it sends the malformed credential
`Bearer None`, and with an empty token the empty credential `Bearer ` —
contradicting the claim that the header is omitted whenever no token is
available. -/
theorem C8_counterexample :
    (upvoteIdeaRequest {} "idea-1" Option.none).headers =
      [("Authorization", "Bearer None")]
    ∧ (upvoteIdeaRequest {} "idea-1" (some "")).headers =
      [("Authorization", "Bearer ")] := by
  constructor <;> decide

/-- C8 (amended).  Operations whose token parameter is optional
(`create_idea`, `create_task`, `create_bounty`) omit the Authorization header
entirely when the token is falsy (absent or empty); operations whose token
parameter is required (`upvote_idea`, `get_activity`, and the other
always-authenticated calls) always send a header built from whatever was
passed, including `Bearer None` and `Bearer ` for absent and empty tokens. -/
theorem C8_header_by_parameter_kind (cfg : ClawColabConfig)
    (title description idea_id task_id currency : String) (tags : List String)
    (amount : Int) (token : Option String) (h : pyTruthyStr token = false) :
    (createIdeaRequest cfg title description tags token).headers = []
    ∧ (createTaskRequest cfg idea_id title description token).headers = []
    ∧ (createBountyRequest cfg task_id amount currency token).headers = []
    ∧ (upvoteIdeaRequest cfg idea_id token).headers =
        [("Authorization", "Bearer " ++ fstrToken token)]
    ∧ (getActivityRequest cfg token).headers =
        [("Authorization", "Bearer " ++ fstrToken token)] := by
  refine ⟨?_, ?_, ?_, rfl, rfl⟩ <;>
    simp [createIdeaRequest, createTaskRequest, createBountyRequest, h]

/-- C8 witness: the amended statement at a concrete falsy token. -/
theorem C8_header_by_parameter_kind_witness :
    (createIdeaRequest {} "t" "d" [] Option.none).headers = []
    ∧ (upvoteIdeaRequest {} "i" Option.none).headers =
        [("Authorization", "Bearer " ++ fstrToken Option.none)] := by
  have h := C8_header_by_parameter_kind ({} : ClawColabConfig) "t" "d" "i" "tk" "c"
    [] 0 Option.none rfl
  exact ⟨h.1, h.2.2.2.1⟩

theorem derivesException_of_isCycleFailure {e : PyException}
    (h : isCycleFailure e = true) : e.derivesException = true := by
  cases e <;> first | rfl | exact absurd h (by decide)

theorem startPollingIter_of_cycleFailure (interval : Nat)
    {o : Except PyException Unit} (h : ∀ e, o = .error e → isCycleFailure e = true) :
    (startPollingIter interval o).sleptFor = interval
    ∧ (startPollingIter interval o).loopContinues = true
    ∧ (∀ e, o = .error e → (startPollingIter interval o).caught = some e) := by
  cases o with
  | ok _ => exact ⟨rfl, rfl, fun e he => by injection he⟩
  | error e =>
      have hd : e.derivesException = true := derivesException_of_isCycleFailure (h e rfl)
      simp only [startPollingIter, hd, if_true]
      refine ⟨trivial, trivial, ?_⟩
      intro e' he'
      injection he' with h1
      rw [h1]

/-- C5.  As long as every cycle outcome is success or one of the cycle
failure classes (transport error, malformed response, an exception raised by
the handler, or the `TypeError`/`KeyError`/`AttributeError` family), the
`while True:` loop of `start_polling` reaches every iteration — there is no
retry ceiling and no implicit termination — and each iteration catches and
reports any cycle error, sleeps exactly the same configured interval (no
backoff), and continues to the next cycle. -/
theorem C5_loop_survives_cycle_failures (interval : Nat)
    (outcomes : Nat → Except PyException Unit) (n : Nat)
    (hfail : ∀ m e, outcomes m = .error e → isCycleFailure e = true) :
    startPollingReaches interval outcomes n = true
    ∧ (startPollingIter interval (outcomes n)).sleptFor = interval
    ∧ (startPollingIter interval (outcomes n)).loopContinues = true
    ∧ (∀ e, outcomes n = .error e →
        (startPollingIter interval (outcomes n)).caught = some e) := by
  have hiter := fun m => startPollingIter_of_cycleFailure interval (fun e => hfail m e)
  have hreach : ∀ m, startPollingReaches interval outcomes m = true := by
    intro m
    induction m with
    | zero => rfl
    | succ k ih =>
        simp only [startPollingReaches, ih, (hiter k).2.1, Bool.and_self]
  exact ⟨hreach n, (hiter n).1, (hiter n).2.1, (hiter n).2.2⟩

/-- C5 witness: a loop whose every cycle fails with a transport error still
reaches iteration 5, sleeping the fixed interval and reporting the error each
time. -/
theorem C5_loop_survives_cycle_failures_witness :
    startPollingReaches 60 (fun _ => .error (.transportError "timeout")) 5 = true
    ∧ (startPollingIter 60 (.error (.transportError "timeout"))).sleptFor = 60
    ∧ (startPollingIter 60 (.error (.transportError "timeout"))).loopContinues = true
    ∧ (startPollingIter 60 (.error (.transportError "timeout"))).caught =
        some (.transportError "timeout") := by
  have h := C5_loop_survives_cycle_failures 60
    (fun _ => .error (.transportError "timeout")) 5
    (fun m e he => by
      injection he with h1
      rw [← h1]
      rfl)
  exact ⟨h.1, h.2.1, h.2.2.1, h.2.2.2 _ rfl⟩

/-- C9.  `health_check` and `get_stats` return the parsed JSON body of
whatever response the remote sends, with no status check; every other remote
operation runs `raise_for_status` first and hence raises `HTTPStatusError`
on a non-success status before any parsed body is used. -/
theorem C9_health_and_stats_unchecked (op : RemoteOp) (r : HttpResponse)
    (h1 : op ≠ .health_check) (h2 : op ≠ .get_stats)
    (h3 : isSuccessStatus r.status = false) :
    opParsedBody .health_check r = r.json
    ∧ opParsedBody .get_stats r = r.json
    ∧ opParsedBody op r = .error (.httpStatusError r.status) := by
  refine ⟨rfl, rfl, ?_⟩
  have hc : checkedJson r = .error (.httpStatusError r.status) := by
    simp [checkedJson, raiseForStatus, h3]
  cases op <;> first | exact absurd rfl h1 | exact absurd rfl h2 | exact hc

/-- C9 witness: on a 500 response, `register`'s body handling raises while
`health_check` returns the parsed body. -/
theorem C9_health_and_stats_unchecked_witness :
    opParsedBody .register ⟨500, .ok (.dict [])⟩ = .error (.httpStatusError 500)
    ∧ opParsedBody .health_check ⟨500, .ok (.dict [])⟩ = .ok (.dict [])
    ∧ isSuccessStatus 500 = false := by
  have h := C9_health_and_stats_unchecked .register ⟨500, .ok (.dict [])⟩
    (by decide) (by decide) rfl
  exact ⟨h.2.2, h.1, rfl⟩

/-- C10.  On any response whose parsed body is a JSON object that lacks the
corresponding collection key, the list-convenience operations return the
empty list rather than raising: `data.get(key, [])` defaults to `[]`. -/
theorem C10_list_ops_default_empty (r : HttpResponse) (kvs : List (String × PyVal))
    (hs : isSuccessStatus r.status = true) (hj : r.json = .ok (.dict kvs)) :
    (kvs.lookup "ideas" = Option.none → getIdeasListResult r = .ok (.list []))
    ∧ (kvs.lookup "tasks" = Option.none → getTasksListResult r = .ok (.list []))
    ∧ (kvs.lookup "bounties" = Option.none → getBountiesListResult r = .ok (.list []))
    ∧ (kvs.lookup "bots" = Option.none → getBotsListResult r = .ok (.list [])) := by
  have hc : checkedJson r = .ok (.dict kvs) := by
    simp [checkedJson, raiseForStatus, hs, hj]
  refine ⟨fun h => ?_, fun h => ?_, fun h => ?_, fun h => ?_⟩ <;>
    simp [getIdeasListResult, getTasksListResult, getBountiesListResult,
      getBotsListResult, hc, PyVal.getDefault, h]

/-- C10 witness: a 200 response whose body is `{"count": 0}` yields `[]` from
each list-convenience operation. -/
theorem C10_list_ops_default_empty_witness :
    getIdeasListResult ⟨200, .ok (.dict [("count", .int 0)])⟩ = .ok (.list [])
    ∧ getTasksListResult ⟨200, .ok (.dict [("count", .int 0)])⟩ = .ok (.list [])
    ∧ getBountiesListResult ⟨200, .ok (.dict [("count", .int 0)])⟩ = .ok (.list [])
    ∧ getBotsListResult ⟨200, .ok (.dict [("count", .int 0)])⟩ = .ok (.list []) := by
  have h := C10_list_ops_default_empty ⟨200, .ok (.dict [("count", .int 0)])⟩
    [("count", PyVal.int 0)] rfl rfl
  exact ⟨h.1 (by decide), h.2.1 (by decide), h.2.2.1 (by decide), h.2.2.2 (by decide)⟩

/-- C3.  The seen-set only grows: a cycle never removes an id, an id marked
seen stays seen in every later cycle (and is skipped, never re-offered to
matching), and any item whose id can be read is marked seen by the cycle that
processes it regardless of the match outcome — the mark on line 301 precedes
the matcher evaluation on lines 302-304 and the dispatch on line 306, for
every interest set and handler configuration. -/
theorem C3_seen_monotone_and_marked (interests : List String) (hasHandler : Bool)
    (seen : List PyVal) (resp : PyVal) (items : List PyVal) (idea i x : PyVal) :
    (x ∈ seen → x ∈ (pollCycleJson interests hasHandler seen resp).seen)
    ∧ (idea.getItem "id" = .ok i → i.hashable = true →
        i ∈ (processIdeas interests hasHandler seen (idea :: items)).seen)
    ∧ (idea.getItem "id" = .ok i → i.hashable = true → i ∈ seen →
        processIdea interests hasHandler seen idea = ⟨seen, [], Option.none⟩) :=
  ⟨fun hx => pollCycleJson_seen_mono interests hasHandler seen resp hx,
   fun hid hh => processIdeas_marks_head interests hasHandler seen items hid hh,
   fun hid hh hm => processIdea_skip interests hasHandler hid hh hm⟩

/-- C3 witness: the statement at a concrete already-seen id. -/
theorem C3_seen_monotone_and_marked_witness :
    ((.str "1" : PyVal) ∈ (pollCycleJson [] true [.str "1"] (.list [])).seen)
    ∧ ((.str "1" : PyVal) ∈
        (processIdeas [] true [.str "1"] [.dict [("id", .str "1")]]).seen)
    ∧ processIdea [] true [.str "1"] (.dict [("id", .str "1")]) =
        ⟨[.str "1"], [], Option.none⟩ := by
  have h := C3_seen_monotone_and_marked [] true [.str "1"] (.list []) []
    (.dict [("id", .str "1")]) (.str "1") (.str "1")
  exact ⟨h.1 (by decide), h.2.1 (by decide) (by decide),
    h.2.2 (by decide) (by decide) (by decide)⟩

/-- C4.  Running the poll cycle twice with the fetch producing the same parsed
value both times dispatches nothing the second time (when the first cycle
completed without an exception), and for any two consecutive cycles — same or
different fetch results — any given item id is dispatched at most once in
total: dedup via the persistent seen-set. -/
theorem C4_idempotent_and_dedup (interests : List String) (hasHandler : Bool)
    (seen : List PyVal) (resp resp2 i : PyVal) :
    ((pollCycleJson interests hasHandler seen resp).err = Option.none →
      (pollCycleJson interests hasHandler
        (pollCycleJson interests hasHandler seen resp).seen resp).dispatched = [])
    ∧ dispatchCountFor i (pollCycleJson interests hasHandler seen resp).dispatched
      + dispatchCountFor i (pollCycleJson interests hasHandler
          (pollCycleJson interests hasHandler seen resp).seen resp2).dispatched ≤ 1 := by
  constructor
  · intro hok
    cases hit : pyIterElems resp with
    | error e =>
        rw [pollCycleJson_iter_err interests hasHandler seen hit] at hok
        simp at hok
    | ok items =>
        rw [pollCycleJson_iter_ok interests hasHandler seen hit] at hok ⊢
        rw [pollCycleJson_iter_ok interests hasHandler _ hit]
        rw [processIdeas_all_seen interests hasHandler items
          (processIdeas interests hasHandler seen items).seen
          (processIdeas_ok_ids interests hasHandler items seen hok)]
  · have ha := pollCycleJson_count_le_one interests hasHandler seen resp i
    have hb := pollCycleJson_count_le_one interests hasHandler
      (pollCycleJson interests hasHandler seen resp).seen resp2 i
    have hc : 1 ≤ dispatchCountFor i
        (pollCycleJson interests hasHandler seen resp).dispatched →
        dispatchCountFor i (pollCycleJson interests hasHandler
          (pollCycleJson interests hasHandler seen resp).seen resp2).dispatched = 0 :=
      fun h => pollCycleJson_count_zero interests hasHandler _ resp2 i
        (pollCycleJson_count_mem interests hasHandler seen resp i h)
    by_cases h1 : 1 ≤ dispatchCountFor i
        (pollCycleJson interests hasHandler seen resp).dispatched
    · have := hc h1
      omega
    · omega

/-- C4 witness: one new matching item is dispatched by the first cycle and
nothing is dispatched when the same fetch result is polled again. -/
theorem C4_idempotent_and_dedup_witness :
    (pollCycleJson [] true [] (.list [.dict [("id", .str "1")]])).err = Option.none
    ∧ (pollCycleJson [] true
        (pollCycleJson [] true [] (.list [.dict [("id", .str "1")]])).seen
        (.list [.dict [("id", .str "1")]])).dispatched = []
    ∧ dispatchCountFor (.str "1")
        (pollCycleJson [] true [] (.list [.dict [("id", .str "1")]])).dispatched
      + dispatchCountFor (.str "1")
        (pollCycleJson [] true
          (pollCycleJson [] true [] (.list [.dict [("id", .str "1")]])).seen
          (.list [.dict [("id", .str "1")]])).dispatched ≤ 1 := by
  have h := C4_idempotent_and_dedup [] true [] (.list [.dict [("id", .str "1")]])
    (.list [.dict [("id", .str "1")]]) (.str "1")
  exact ⟨by decide, h.1 (by decide), h.2⟩

end ClawColab
